import Mathlib

/-!
Verification of the NYC train-trip data-processing pipeline
(`backend/app/data_processing.py`).

The pipeline is shallowly embedded:
* timestamps are modelled as parse results in seconds (`Option Int`,
  `none` = unparsable/missing, mirroring `pd.to_datetime(errors='coerce')`);
* coordinates and fares are exact rationals (CSV decimals);
* the haversine distance and the quantities derived from it live in `ℝ`.

Row types follow the dataset's columns (vendor id, pickup/dropoff
timestamps, passenger count, four coordinates, store-and-forward flag,
optional fare amount).
-/

namespace NYCTrain

/-- A raw CSV row, with timestamp and passenger-count columns as they come
out of parsing: `none` marks a missing or unparsable value. -/
structure RawRow where
  vendor_id : Int
  pickup_datetime : Option Int
  dropoff_datetime : Option Int
  passenger_count : Option Int
  pickup_latitude : ℚ
  pickup_longitude : ℚ
  dropoff_latitude : ℚ
  dropoff_longitude : ℚ
  store_and_fwd_flag : String
  fare_amount : Option ℚ
  deriving DecidableEq

/-- A row after the in-place coercions at the start of
`handle_missing_values`: timestamps coerced (possibly to missing) and
`passenger_count` filled with 1 and clamped to at least 1. -/
structure CRow where
  vendor_id : Int
  pickup_datetime : Option Int
  dropoff_datetime : Option Int
  passenger_count : Int
  pickup_latitude : ℚ
  pickup_longitude : ℚ
  dropoff_latitude : ℚ
  dropoff_longitude : ℚ
  store_and_fwd_flag : String
  fare_amount : Option ℚ
  deriving DecidableEq

/-- The coercions of lines 98-102 of `data_processing.py`: datetimes are
already parse results in the model, `passenger_count` becomes
`fillna(1).astype(int).clip(lower=1)`. -/
def coerceRow (r : RawRow) : CRow :=
  { vendor_id := r.vendor_id
    pickup_datetime := r.pickup_datetime
    dropoff_datetime := r.dropoff_datetime
    passenger_count := max (r.passenger_count.getD 1) 1
    pickup_latitude := r.pickup_latitude
    pickup_longitude := r.pickup_longitude
    dropoff_latitude := r.dropoff_latitude
    dropoff_longitude := r.dropoff_longitude
    store_and_fwd_flag := r.store_and_fwd_flag
    fare_amount := r.fare_amount }

/-- The invalid-row mask of lines 105-112: unparsable pickup or dropoff
timestamp, or any coordinate exactly 0. -/
def invalidB (r : CRow) : Bool :=
  r.pickup_datetime.isNone || r.dropoff_datetime.isNone ||
  (r.pickup_latitude == 0) || (r.pickup_longitude == 0) ||
  (r.dropoff_latitude == 0) || (r.dropoff_longitude == 0)

/-- The scanning loop behind `DataFrame.drop_duplicates()`: keep a row iff
an identical row has not been seen earlier in the scan. -/
def dropDupsScan [DecidableEq α] (seen : List α) : List α → List α
  | [] => []
  | x :: xs => if x ∈ seen then dropDupsScan seen xs else x :: dropDupsScan (x :: seen) xs

/-- `DataFrame.drop_duplicates()` keeps the first occurrence of each row
value, in scan order. -/
def drop_duplicates [DecidableEq α] (l : List α) : List α :=
  dropDupsScan [] l

/-- `handle_missing_values` (lines 89-125): coerce the columns, capture the
rows matching the invalid mask as the removed-records log, drop them from
the dataset, then drop exact duplicates.  Returns
(cleaned dataset, removed-records log). -/
def handle_missing_values (raw : List RawRow) : List CRow × List CRow :=
  let coerced := raw.map coerceRow
  let removed := coerced.filter invalidB
  let kept := coerced.filter (fun r => !invalidB r)
  (drop_duplicates kept, removed)

/-- Specification-side deduplication: keep the head and recursively drop
every later occurrence of it.  This is the literal "retain the first
occurrence, remove every later occurrence" recursion. -/
def dedupFirst [DecidableEq α] : List α → List α
  | [] => []
  | x :: xs => x :: dedupFirst (xs.filter (fun y => y ≠ x))
termination_by l => l.length
decreasing_by
  simp only [List.length_cons]
  exact Nat.lt_succ_of_le (List.length_filter_le _ _)

/-- Unfolding lemma: `dedupFirst` of the empty list. -/
@[simp]
theorem dedupFirst_nil [DecidableEq α] : dedupFirst ([] : List α) = [] := by
  rw [dedupFirst.eq_def]

/-- Unfolding lemma: `dedupFirst` keeps the head and recurses on the tail
with every later copy of the head removed. -/
@[simp]
theorem dedupFirst_cons [DecidableEq α] (x : α) (xs : List α) :
    dedupFirst (x :: xs) = x :: dedupFirst (xs.filter (fun y => y ≠ x)) := by
  rw [dedupFirst.eq_def]

/-- The dedup scan with a seen-set equals `dedupFirst` after pre-filtering
the already-seen values. -/
theorem dropDupsScan_eq_dedupFirst [DecidableEq α] :
    ∀ (l seen : List α),
      dropDupsScan seen l = dedupFirst (l.filter (fun y => y ∉ seen))
  | [], seen => by simp [dropDupsScan]
  | x :: xs, seen => by
    by_cases hx : x ∈ seen
    · rw [dropDupsScan, if_pos hx, List.filter_cons,
        dropDupsScan_eq_dedupFirst xs seen]
      simp [hx]
    · rw [dropDupsScan, if_neg hx, List.filter_cons, if_pos (by simp [hx])]
      rw [dedupFirst_cons, dropDupsScan_eq_dedupFirst xs (x :: seen)]
      congr 1
      rw [List.filter_filter]
      exact congrArg dedupFirst (List.filter_congr (fun y _ => by
        by_cases h1 : y = x <;> by_cases h2 : y ∈ seen <;> simp [h1, h2]))

/-- `drop_duplicates` is exactly the keep-the-first-occurrence recursion. -/
theorem drop_duplicates_eq_dedupFirst [DecidableEq α] (l : List α) :
    drop_duplicates l = dedupFirst l := by
  rw [drop_duplicates, dropDupsScan_eq_dedupFirst]
  congr 1
  simp

/-- `dedupFirst` neither invents nor loses row values. -/
theorem mem_dedupFirst [DecidableEq α] (l : List α) (y : α) :
    y ∈ dedupFirst l ↔ y ∈ l := by
  induction l using dedupFirst.induct with
  | case1 => simp
  | case2 x xs ih =>
    rw [dedupFirst_cons, List.mem_cons, ih, List.mem_filter]
    by_cases hy : y = x <;> simp [hy]

/-- The output of `dedupFirst` contains no duplicate values. -/
theorem nodup_dedupFirst [DecidableEq α] (l : List α) :
    (dedupFirst l).Nodup := by
  induction l using dedupFirst.induct with
  | case1 => simp
  | case2 x xs ih =>
    rw [dedupFirst_cons]
    refine List.nodup_cons.mpr ⟨fun hx => ?_, ih⟩
    have := (mem_dedupFirst _ _).mp hx
    simp [List.mem_filter] at this

/-- `dedupFirst` only removes rows: the output is a sublist (order kept). -/
theorem dedupFirst_sublist [DecidableEq α] (l : List α) :
    (dedupFirst l).Sublist l := by
  induction l using dedupFirst.induct with
  | case1 => simp
  | case2 x xs ih =>
    rw [dedupFirst_cons]
    exact (ih.trans (List.filter_sublist xs)).cons₂ x

/-- A cleaned row: `handle_missing_values` removed every row whose
timestamps failed to parse, so both instants are present. -/
structure VRow where
  vendor_id : Int
  pickup_datetime : Int
  dropoff_datetime : Int
  passenger_count : Int
  pickup_latitude : ℚ
  pickup_longitude : ℚ
  dropoff_latitude : ℚ
  dropoff_longitude : ℚ
  store_and_fwd_flag : String
  fare_amount : Option ℚ
  deriving DecidableEq

/-- Forget the (always satisfied, see `handle_missing_values_valid`)
option wrappers on the timestamps of a cleaned row. -/
def toValid (r : CRow) : VRow :=
  { vendor_id := r.vendor_id
    pickup_datetime := r.pickup_datetime.getD 0
    dropoff_datetime := r.dropoff_datetime.getD 0
    passenger_count := r.passenger_count
    pickup_latitude := r.pickup_latitude
    pickup_longitude := r.pickup_longitude
    dropoff_latitude := r.dropoff_latitude
    dropoff_longitude := r.dropoff_longitude
    store_and_fwd_flag := r.store_and_fwd_flag
    fare_amount := r.fare_amount }

/-- Every row surviving `handle_missing_values` has both timestamps
present, justifying `toValid`. -/
theorem handle_missing_values_valid (raw : List RawRow) :
    ∀ r ∈ (handle_missing_values raw).1,
      r.pickup_datetime.isSome ∧ r.dropoff_datetime.isSome := by
  intro r hr
  have hmem : r ∈ (raw.map coerceRow).filter (fun r => !invalidB r) := by
    have := dedupFirst_sublist ((raw.map coerceRow).filter (fun r => !invalidB r))
    rw [handle_missing_values, drop_duplicates_eq_dedupFirst] at hr
    exact this.mem hr
  have hv : invalidB r = false := by
    have := (List.mem_filter.mp hmem).2
    simpa using this
  rw [invalidB] at hv
  simp only [Bool.or_eq_false_iff] at hv
  refine ⟨?_, ?_⟩
  · have := hv.1.1.1.1.1
    cases h : r.pickup_datetime <;> simp_all
  · have := hv.1.1.1.1.2
    cases h : r.dropoff_datetime <;> simp_all

/-- `Series.round(6)`: round a coordinate to six decimal places. -/
def round6 (q : ℚ) : ℚ :=
  (round (q * 1000000) : ℚ) / 1000000

/-- Per-row body of `normalize_data` (lines 127-151): timestamps are
re-parsed (identity on already-parsed instants), the four coordinates are
rounded to six decimal places, `passenger_count` is coerced to int
(already an int) and `fare_amount` to numeric (already numeric). -/
def normRow (r : VRow) : VRow :=
  { r with
    pickup_latitude := round6 r.pickup_latitude
    pickup_longitude := round6 r.pickup_longitude
    dropoff_latitude := round6 r.dropoff_latitude
    dropoff_longitude := round6 r.dropoff_longitude }

/-- `normalize_data`: normalize every row; no row is added or removed. -/
def normalize_data (df : List VRow) : List VRow :=
  df.map normRow

/-- Rounding to six decimals is idempotent. -/
theorem round6_round6 (q : ℚ) : round6 (round6 q) = round6 q := by
  rw [round6, round6, div_mul_cancel₀ _ (by norm_num : (1000000 : ℚ) ≠ 0),
    round_intCast]

/-- `math.radians`: degrees to radians. -/
noncomputable def radians (x : ℝ) : ℝ := x * (Real.pi / 180)

/-- `calculate_trip_distance` (lines 153-160): haversine great-circle
distance in kilometers, Earth radius 6371 km.  A pure function of its four
arguments: deterministic and side-effect free by construction. -/
noncomputable def calculate_trip_distance (lat1 lon1 lat2 lon2 : ℝ) : ℝ :=
  let rlat1 := radians lat1
  let rlon1 := radians lon1
  let rlat2 := radians lat2
  let rlon2 := radians lon2
  let dlat := rlat2 - rlat1
  let dlon := rlon2 - rlon1
  let a := Real.sin (dlat / 2) ^ 2 +
    Real.cos rlat1 * Real.cos rlat2 * Real.sin (dlon / 2) ^ 2
  let c := 2 * Real.arcsin (Real.sqrt a)
  6371 * c

/-- The haversine distance is never negative. -/
theorem calculate_trip_distance_nonneg (lat1 lon1 lat2 lon2 : ℝ) :
    0 ≤ calculate_trip_distance lat1 lon1 lat2 lon2 := by
  rw [calculate_trip_distance]
  have h := Real.arcsin_nonneg.mpr (Real.sqrt_nonneg
    (Real.sin ((radians lat2 - radians lat1) / 2) ^ 2 +
      Real.cos (radians lat1) * Real.cos (radians lat2) *
        Real.sin ((radians lon2 - radians lon1) / 2) ^ 2))
  positivity

/-- The fixed speed threshold (km/h), shared by outlier detection and the
efficiency normalization. -/
noncomputable def SPEED_OUTLIER_THRESHOLD : ℝ := 120.0

/-- A row carrying the derived columns added by `create_derived_features`.
Derived quantities that pandas leaves as `NaN` are `none`. -/
structure DRow where
  vendor_id : Int
  pickup_datetime : Int
  dropoff_datetime : Int
  passenger_count : Int
  pickup_latitude : ℚ
  pickup_longitude : ℚ
  dropoff_latitude : ℚ
  dropoff_longitude : ℚ
  store_and_fwd_flag : String
  fare_amount : Option ℚ
  trip_duration_sec : Option Int
  trip_distance_km : ℝ
  trip_speed_kmh : Option ℝ
  idle_time_sec : Option Int
  fare_per_km : Option ℝ
  trip_efficiency : Option ℝ

/-- Lines 169-183 of `create_derived_features`, per row: duration in
seconds masked to missing when negative, haversine distance, and speed
masked to missing unless the duration is positive. -/
noncomputable def addBase (r : VRow) : DRow :=
  let dd := r.dropoff_datetime - r.pickup_datetime
  let dist := calculate_trip_distance (r.pickup_latitude : ℝ) (r.pickup_longitude : ℝ)
    (r.dropoff_latitude : ℝ) (r.dropoff_longitude : ℝ)
  { vendor_id := r.vendor_id
    pickup_datetime := r.pickup_datetime
    dropoff_datetime := r.dropoff_datetime
    passenger_count := r.passenger_count
    pickup_latitude := r.pickup_latitude
    pickup_longitude := r.pickup_longitude
    dropoff_latitude := r.dropoff_latitude
    dropoff_longitude := r.dropoff_longitude
    store_and_fwd_flag := r.store_and_fwd_flag
    fare_amount := r.fare_amount
    trip_duration_sec := if 0 ≤ dd then some dd else none
    trip_distance_km := dist
    trip_speed_kmh := if 0 < dd then some (dist / ((dd : ℝ) / 3600)) else none
    idle_time_sec := none
    fare_per_km := none
    trip_efficiency := none }

/-- The sort order of line 186: `sort_values(['vendor_id',
'pickup_datetime'])`, i.e. lexicographic on (vendor id, pickup time),
ascending. -/
def lexLe (a b : DRow) : Prop :=
  a.vendor_id < b.vendor_id ∨
    (a.vendor_id = b.vendor_id ∧ a.pickup_datetime ≤ b.pickup_datetime)

instance : DecidableRel lexLe := fun a b =>
  inferInstanceAs (Decidable (a.vendor_id < b.vendor_id ∨
    (a.vendor_id = b.vendor_id ∧ a.pickup_datetime ≤ b.pickup_datetime)))

instance : IsTotal DRow lexLe := by
  constructor
  intro a b
  rcases lt_trichotomy a.vendor_id b.vendor_id with h | h | h
  · exact Or.inl (Or.inl h)
  · rcases le_total a.pickup_datetime b.pickup_datetime with hp | hp
    · exact Or.inl (Or.inr ⟨h, hp⟩)
    · exact Or.inr (Or.inr ⟨h.symm, hp⟩)
  · exact Or.inr (Or.inl h)

instance : IsTrans DRow lexLe := by
  constructor
  intro a b c hab hbc
  rcases hab with h1 | ⟨e1, p1⟩ <;> rcases hbc with h2 | ⟨e2, p2⟩
  · exact Or.inl (h1.trans h2)
  · exact Or.inl (e2 ▸ h1)
  · exact Or.inl (e1 ▸ h2)
  · exact Or.inr ⟨e1.trans e2, p1.trans p2⟩

/-- The stable sort of line 186 (pandas lexsorts by the two key columns;
any stable sort by the same keys is extensionally identical). -/
def sortRows (l : List DRow) : List DRow :=
  List.insertionSort lexLe l

/-- The `last_dropoff[vendor] = row['dropoff_datetime']` map update of
line 200: unconditional, after the row's idle time was computed. -/
def updMap (m : Int → Option Int) (r : DRow) : Int → Option Int :=
  fun v => if v = r.vendor_id then some r.dropoff_datetime else m v

/-- Lines 194-197: the idle time of one row given the current last-dropoff
map: absent when the operator is new, otherwise pickup minus the mapped
dropoff, kept only when non-negative. -/
def idleOf (m : Int → Option Int) (r : DRow) : Option Int :=
  match m r.vendor_id with
  | none => none
  | some d =>
    if 0 ≤ r.pickup_datetime - d then some (r.pickup_datetime - d) else none

/-- The scan of lines 187-201: one pass over the sorted rows threading the
last-dropoff-per-operator map. -/
def idleScan (m : Int → Option Int) : List DRow → List (Option Int)
  | [] => []
  | r :: rs => idleOf m r :: idleScan (updMap m r) rs

/-- Line 202: attach the computed idle time to its row. -/
def setIdle (o : Option Int) (r : DRow) : DRow :=
  { r with idle_time_sec := o }

open Classical in
/-- Lines 204-211, per row: `fare_per_km` = fare / distance with infinite
results (distance 0) coerced to missing, and `trip_efficiency` =
speed / 120 clipped above at 1.0, missing when the speed is missing. -/
noncomputable def addFareEff (r : DRow) : DRow :=
  { r with
    fare_per_km :=
      match r.fare_amount with
      | none => none
      | some f =>
        if r.trip_distance_km = 0 then none
        else some ((f : ℝ) / r.trip_distance_km)
    trip_efficiency :=
      r.trip_speed_kmh.map (fun s => min (s / SPEED_OUTLIER_THRESHOLD) 1) }

/-- `create_derived_features` (lines 162-214): per-row duration, distance
and speed; a single stable sort by (vendor id, pickup time); the
stateful idle-time scan over the sorted rows; then fare-per-km and
efficiency. -/
noncomputable def create_derived_features (df : List VRow) : List DRow :=
  let base := df.map addBase
  let sorted := sortRows base
  let idles := idleScan (fun _ => none) sorted
  (List.zipWith setIdle idles sorted).map addFareEff

/-- The singly linked list of lines 357-385, abstracted to its contents in
head-to-tail order (a node chain with a tail pointer is exactly an
append-at-the-end list). -/
structure LinkedList (α : Type) where
  items : List α

/-- `LinkedList.add`: append a record at the tail. -/
def LinkedList.add (l : LinkedList α) (x : α) : LinkedList α :=
  ⟨l.items ++ [x]⟩

/-- `LinkedList.to_list`: the records from head to tail. -/
def LinkedList.to_list (l : LinkedList α) : List α :=
  l.items

/-- Lines 225-227: a missing `trip_speed_kmh` is treated as 0. -/
noncomputable def speedOrZero (r : DRow) : ℝ :=
  r.trip_speed_kmh.getD 0

open Classical in
/-- Line 228: is this record's (defaulted) speed strictly above the
threshold? -/
noncomputable def isOutlier (r : DRow) : Bool :=
  decide (SPEED_OUTLIER_THRESHOLD < speedOrZero r)

/-- `detect_outliers` (lines 216-235): scan the dataset in order, append
each record whose defaulted speed exceeds the threshold to the linked
list, and return the collected records. -/
noncomputable def detect_outliers (df : List DRow) : List DRow :=
  (df.foldl (fun acc r => if isOutlier r then acc.add r else acc)
    (⟨[]⟩ : LinkedList DRow)).to_list

/-- The data-level result of one pipeline run, including the summary
quantities printed by `print_summary` (lines 345-354). -/
structure RunResult where
  originalRows : Nat
  finalDf : List DRow
  removedRecords : List CRow
  outlierRecords : List DRow
  retentionPct : ℚ

/-- The data content of `process_pipeline` (lines 388-408): clean,
normalize, derive, detect outliers, and summarize.  `retentionPct` is the
`self.df.shape[0] / self.original_shape[0] * 100` of line 350. -/
noncomputable def process_pipeline_data (raw : List RawRow) : RunResult :=
  let cleaned := (handle_missing_values raw).1
  let removed := (handle_missing_values raw).2
  let normalized := normalize_data (cleaned.map toValid)
  let derived := create_derived_features normalized
  let outliers := detect_outliers derived
  { originalRows := raw.length
    finalDf := derived
    removedRecords := removed
    outlierRecords := outliers
    retentionPct := (derived.length : ℚ) / (raw.length : ℚ) * 100 }

/-- The files the reporting step and downstream persistence touch. -/
inductive Artifact where
  | cleanedData
  | removedRecords
  | speedOutliers
  | processingLog
  | dbInsert
  deriving DecidableEq

/-- An oracle for the fallible I/O operations: `true` = the write
succeeds, `false` = it raises. -/
structure IOEnv where
  cleanedOk : Bool
  removedOk : Bool
  outliersOk : Bool
  logOk : Bool
  dbOk : Bool
  deriving DecidableEq

/-- `save_transparency_logs` (lines 251-277): one `try` block attempts the
removed-records write (if any), then the outliers write (if any), then the
processing-log write; the first failure raises, skipping the rest, and is
caught and logged by the single `except`.  Returns (writes attempted,
whether an error was caught and logged). -/
def save_transparency_logs (env : IOEnv) (hasRemoved hasOutliers : Bool) :
    List Artifact × Bool :=
  if hasRemoved && !env.removedOk then ([Artifact.removedRecords], true)
  else
    let a1 := if hasRemoved then [Artifact.removedRecords] else []
    if hasOutliers && !env.outliersOk then (a1 ++ [Artifact.speedOutliers], true)
    else
      let a2 := a1 ++ (if hasOutliers then [Artifact.speedOutliers] else [])
      if !env.logOk then (a2 ++ [Artifact.processingLog], true)
      else (a2 ++ [Artifact.processingLog], false)

/-- The observable outcome of the reporting-and-persistence tail of
`process_pipeline`. -/
structure Outcome where
  attempted : List Artifact
  aborted : Bool
  dbAttempted : Bool
  summaryEmitted : Bool
  transparencyErrorLogged : Bool
  deriving DecidableEq

/-- The I/O skeleton of `process_pipeline` from `save_cleaned_data` on:
the main cleaned-dataset write is unguarded (its failure aborts the run);
`save_transparency_logs` catches its own failures; `insert_to_database`
catches its own failures; `print_summary` then runs. -/
def process_pipeline_io (env : IOEnv) (hasRemoved hasOutliers : Bool) :
    Outcome :=
  if !env.cleanedOk then
    { attempted := [Artifact.cleanedData]
      aborted := true
      dbAttempted := false
      summaryEmitted := false
      transparencyErrorLogged := false }
  else
    let st := save_transparency_logs env hasRemoved hasOutliers
    { attempted := Artifact.cleanedData :: st.1 ++ [Artifact.dbInsert]
      aborted := false
      dbAttempted := true
      summaryEmitted := true
      transparencyErrorLogged := st.2 }

/-! ## Supporting lemmas -/

/-- The idle-time scan produces one value per row. -/
theorem idleScan_length (l : List DRow) : ∀ m, (idleScan m l).length = l.length := by
  induction l with
  | nil => intro m; rfl
  | cons r rs ih => intro m; simp [idleScan, ih]

/-- Row count is preserved by `create_derived_features`. -/
theorem create_derived_features_length (df : List VRow) :
    (create_derived_features df).length = df.length := by
  rw [create_derived_features]
  have hs : (sortRows (df.map addBase)).length = (df.map addBase).length :=
    (List.perm_insertionSort lexLe (df.map addBase)).length_eq
  rw [List.length_map, List.length_zipWith, idleScan_length, hs, List.length_map,
    min_self]

/-- Unrolling the outlier fold: the collected list is the accumulator's
contents followed by the records passing the threshold test, in scan
order. -/
theorem detect_outliers_foldl (df : List DRow) :
    ∀ acc : LinkedList DRow,
      (df.foldl (fun acc r => if isOutlier r then acc.add r else acc) acc).to_list
        = acc.to_list ++ df.filter isOutlier := by
  induction df with
  | nil => intro acc; simp
  | cons r rs ih =>
    intro acc
    rw [List.foldl_cons, List.filter_cons]
    by_cases h : isOutlier r
    · rw [if_pos h, if_pos h, ih]
      simp [LinkedList.add, LinkedList.to_list]
    · rw [if_neg h, if_neg h, ih]

/-! ## Claim theorems -/

/-- C5: `calculate_trip_distance` is symmetric in its two coordinate
pairs, and is 0 on a pair compared with itself.  (As a Lean function it is
deterministic and side-effect free by construction.) -/
theorem distance_symm_and_zero_on_diagonal (lat1 lon1 lat2 lon2 : ℝ) :
    calculate_trip_distance lat1 lon1 lat2 lon2
        = calculate_trip_distance lat2 lon2 lat1 lon1 ∧
      calculate_trip_distance lat1 lon1 lat1 lon1 = 0 := by
  have key : ∀ x y : ℝ, Real.sin ((x - y) / 2) ^ 2 = Real.sin ((y - x) / 2) ^ 2 := by
    intro x y
    rw [show (x - y) / 2 = -((y - x) / 2) by ring, Real.sin_neg, neg_sq]
  constructor
  · simp only [calculate_trip_distance]
    rw [key (radians lat2) (radians lat1), key (radians lon2) (radians lon1),
      mul_comm (Real.cos (radians lat1)) (Real.cos (radians lat2))]
  · simp [calculate_trip_distance, sub_self, Real.sin_zero, Real.sqrt_zero,
      Real.arcsin_zero]

/-- C7: normalization is idempotent (a second run returns its input
unchanged) and a single run neither adds nor removes rows. -/
theorem normalize_idempotent_and_preserves_rows (df : List VRow) :
    normalize_data (normalize_data df) = normalize_data df ∧
      (normalize_data df).length = df.length := by
  constructor
  · simp only [normalize_data, List.map_map]
    apply List.map_congr_left
    intro r _
    show normRow (normRow r) = normRow r
    cases r
    simp [normRow, round6_round6]
  · simp [normalize_data]

/-- C2: `detect_outliers` returns exactly the records whose
(absent-defaulted-to-0) speed strictly exceeds the 120 km/h threshold, as
an order-preserving filter of the scanned dataset (so duplicates by value
are kept and each entry is a value snapshot); a record with absent speed
is never collected. -/
theorem outlier_set_spec (df : List DRow) :
    detect_outliers df = df.filter isOutlier ∧
      (∀ r, r ∈ detect_outliers df ↔
        r ∈ df ∧ SPEED_OUTLIER_THRESHOLD < speedOrZero r) ∧
      (∀ r, isOutlier r = true ↔ SPEED_OUTLIER_THRESHOLD < speedOrZero r) ∧
      (detect_outliers df).all (fun r => r.trip_speed_kmh.isSome) = true := by
  have hfil : detect_outliers df = df.filter isOutlier := by
    rw [detect_outliers, detect_outliers_foldl]
    rfl
  have hio : ∀ r, isOutlier r = true ↔ SPEED_OUTLIER_THRESHOLD < speedOrZero r := by
    intro r
    simp [isOutlier]
  refine ⟨hfil, ?_, hio, ?_⟩
  · intro r
    rw [hfil, List.mem_filter, hio r]
  · rw [hfil, List.all_eq_true]
    intro r hr
    have h := (List.mem_filter.mp hr).2
    cases hs : r.trip_speed_kmh with
    | some s => rfl
    | none =>
      exfalso
      have hlt := (hio r).mp h
      rw [speedOrZero, hs] at hlt
      rw [SPEED_OUTLIER_THRESHOLD] at hlt
      norm_num at hlt

/-- An invalid raw row whose original `passenger_count` is 0: the cleaning
stage clamps it to 1 before capturing the removed-records log. -/
def rawBad : RawRow :=
  ⟨1, some 0, some 60, some 0, 0, -74, 41, -74, "N", none⟩

/-- C3 counterexample: the removed-records log does **not** preserve the
original field values: at `rawBad` (invalid because of the zero pickup
latitude) the log holds passenger count 1, while the raw input had 0.  So
"captured with original, pre-clean values" fails for the
filled/clamped `passenger_count` column (and likewise, in the real code,
for the coerced timestamp columns). -/
theorem discard_log_original_values_cex :
    ¬(((handle_missing_values [rawBad]).2.map (fun r => some r.passenger_count))
        = [rawBad].map (fun r => r.passenger_count)) := by decide

/-- C3 amended: every raw row matching the invalid mask (after coercion)
is captured in the removed-records log, in input order, before removal —
but as its **post-coercion** snapshot: `passenger_count` is
filled-with-1-and-clamped, timestamps are the coerced parse results, and
every other field keeps its original value. -/
theorem discard_log_snapshot (raw : List RawRow) :
    (handle_missing_values raw).2
        = (raw.filter (fun r => invalidB (coerceRow r))).map coerceRow ∧
      (∀ q : RawRow,
        (coerceRow q).vendor_id = q.vendor_id ∧
        (coerceRow q).pickup_latitude = q.pickup_latitude ∧
        (coerceRow q).pickup_longitude = q.pickup_longitude ∧
        (coerceRow q).dropoff_latitude = q.dropoff_latitude ∧
        (coerceRow q).dropoff_longitude = q.dropoff_longitude ∧
        (coerceRow q).store_and_fwd_flag = q.store_and_fwd_flag ∧
        (coerceRow q).fare_amount = q.fare_amount ∧
        (coerceRow q).passenger_count = max (q.passenger_count.getD 1) 1) := by
  constructor
  · rw [handle_missing_values]
    exact List.filter_map coerceRow raw
  · intro q
    exact ⟨rfl, rfl, rfl, rfl, rfl, rfl, rfl, rfl⟩

/-- C9: after invalid-row removal, duplicate removal keeps exactly the
first occurrence of each row value and drops every later occurrence
(`dedupFirst` is literally that recursion); the cleaned output has no
duplicates, is an order-preserving sublist of the surviving rows, loses no
row value, and no surviving (hence valid) row — in particular no dropped
duplicate — appears in the removed-records log. -/
theorem clean_keeps_first_occurrence (raw : List RawRow) :
    (handle_missing_values raw).1
        = dedupFirst ((raw.map coerceRow).filter (fun r => !invalidB r)) ∧
      (handle_missing_values raw).1.Nodup ∧
      (handle_missing_values raw).1.Sublist
        ((raw.map coerceRow).filter (fun r => !invalidB r)) ∧
      (∀ x, x ∈ (handle_missing_values raw).1 ↔
        x ∈ (raw.map coerceRow).filter (fun r => !invalidB r)) ∧
      ((raw.map coerceRow).filter (fun r => !invalidB r)) ∩
        (handle_missing_values raw).2 = [] := by
  have h1 : (handle_missing_values raw).1
      = dedupFirst ((raw.map coerceRow).filter (fun r => !invalidB r)) := by
    rw [handle_missing_values]
    exact drop_duplicates_eq_dedupFirst _
  refine ⟨h1, ?_, ?_, ?_, ?_⟩
  · rw [h1]; exact nodup_dedupFirst _
  · rw [h1]; exact dedupFirst_sublist _
  · intro x; rw [h1]; exact mem_dedupFirst _ x
  · apply List.eq_nil_iff_forall_not_mem.mpr
    intro x hx
    rcases List.mem_inter_iff.mp hx with ⟨hk, hrm⟩
    have hks := (List.mem_filter.mp hk).2
    have hrs : invalidB x = true := by
      have hx2 : x ∈ (raw.map coerceRow).filter invalidB := by
        rw [handle_missing_values] at hrm
        exact hrm
      exact (List.mem_filter.mp hx2).2
    rw [hrs] at hks
    simp at hks

/-- An I/O environment where only the removed-records write fails. -/
def envRemovedFails : IOEnv := ⟨true, false, true, true, true⟩

/-- C4 counterexample: when the removed-records write fails (with both
transparency files due), the speed-outliers and processing-log writes are
**not** attempted — the single `try` block skips them — refuting "does
not prevent the remaining transparency writes from being attempted".
(The failing write itself was attempted, and database insertion still
happens.) -/
theorem transparency_remaining_writes_skipped_cex :
    Artifact.speedOutliers ∉ (process_pipeline_io envRemovedFails true true).attempted ∧
      Artifact.processingLog ∉ (process_pipeline_io envRemovedFails true true).attempted ∧
      Artifact.removedRecords ∈ (process_pipeline_io envRemovedFails true true).attempted ∧
      Artifact.dbInsert ∈ (process_pipeline_io envRemovedFails true true).attempted := by
  decide

/-- C4 amended: for every run that reaches the reporting step, a failure
writing a transparency artifact is caught and logged and never aborts the
run; database insertion and the final summary still happen.  (Transparency
writes after the first failing one are skipped, however.)  The error flag
is raised exactly when one of the due writes fails. -/
theorem transparency_failure_caught_nonfatal (env : IOEnv)
    (hasRemoved hasOutliers : Bool) (hc : env.cleanedOk = true) :
    (process_pipeline_io env hasRemoved hasOutliers).aborted = false ∧
      (process_pipeline_io env hasRemoved hasOutliers).dbAttempted = true ∧
      (process_pipeline_io env hasRemoved hasOutliers).summaryEmitted = true ∧
      (process_pipeline_io env hasRemoved hasOutliers).transparencyErrorLogged
        = (hasRemoved && !env.removedOk || hasOutliers && !env.outliersOk ||
            !env.logOk) := by
  rcases env with ⟨c, r, o, l, d⟩
  cases c
  · simp at hc
  · cases r <;> cases o <;> cases l <;> cases hasRemoved <;> cases hasOutliers <;>
      simp [process_pipeline_io, save_transparency_logs]

/-- Witness for the amended C4 theorem, at a concrete environment where
the processing-log write fails. -/
theorem transparency_failure_caught_nonfatal_w :
    (process_pipeline_io ⟨true, true, true, false, true⟩ true true).aborted = false ∧
      (process_pipeline_io ⟨true, true, true, false, true⟩ true true).dbAttempted = true ∧
      (process_pipeline_io ⟨true, true, true, false, true⟩ true true).summaryEmitted = true ∧
      (process_pipeline_io ⟨true, true, true, false, true⟩ true true).transparencyErrorLogged
        = (true && !true || true && !true || !false) :=
  transparency_failure_caught_nonfatal ⟨true, true, true, false, true⟩ true true rfl

/-- C8: the retention percentage of the run summary is exactly
(cleaned row count / original row count) × 100 — the later stages change
no row count, so the final row count in the formula is the cleaned one.
The hypothesis excludes the empty input, on which the real summary would
raise a division-by-zero error instead of completing. -/
theorem retention_percentage_exact (raw : List RawRow) (h : 0 < raw.length) :
    (process_pipeline_data raw).retentionPct
        = ((handle_missing_values raw).1.length : ℚ) / (raw.length : ℚ) * 100 := by
  simp only [process_pipeline_data]
  rw [create_derived_features_length]
  simp [normalize_data]

/-- A valid raw row (used to instantiate hypotheses at concrete data). -/
def rawGood : RawRow :=
  ⟨2, some 0, some 600, some 1, 40.7, -74.0, 40.8, -73.9, "N", none⟩

/-- Witness for C8 at a one-row dataset. -/
theorem retention_percentage_exact_w :
    0 < ([rawGood] : List RawRow).length ∧
      (process_pipeline_data [rawGood]).retentionPct
        = ((handle_missing_values [rawGood]).1.length : ℚ)
            / (([rawGood] : List RawRow).length : ℚ) * 100 :=
  ⟨by decide, retention_percentage_exact [rawGood] (by decide)⟩

/-! ## Idle-time characterization machinery -/

/-- The last-dropoff map after processing a prefix of rows, starting from
`m`. -/
def mAfter (m : Int → Option Int) (pre : List DRow) : Int → Option Int :=
  pre.foldl updMap m

/-- Specification-side reading of the last-dropoff map: the dropoff time
of the last record of operator `v` in `pre` (the immediately preceding
same-operator record, when `pre` is the list of records before the current
one), if any. -/
def prevDropoff : List DRow → Int → Option Int
  | [], _ => none
  | q :: rest, v =>
    match prevDropoff rest v with
    | some d => some d
    | none => if q.vendor_id = v then some q.dropoff_datetime else none

/-- Folding the unconditional map updates over a prefix yields exactly the
last same-operator dropoff, falling back to the initial map. -/
theorem mAfter_eq (pre : List DRow) : ∀ (m : Int → Option Int) (v : Int),
    mAfter m pre v = (prevDropoff pre v).elim (m v) some := by
  induction pre with
  | nil => intro m v; rfl
  | cons q rest ih =>
    intro m v
    have hstep : mAfter m (q :: rest) = mAfter (updMap m q) rest := rfl
    rw [hstep, ih (updMap m q) v]
    cases hp : prevDropoff rest v with
    | some d => simp [prevDropoff, hp]
    | none =>
      simp only [prevDropoff, hp, updMap]
      by_cases hv : v = q.vendor_id
      · simp [hv]
      · have hv2 : q.vendor_id ≠ v := fun h => hv h.symm
        simp [hv, hv2]

/-- Element-wise description of `List.zipWith` through optional
indexing. -/
theorem getElem?_zipWithF {α β γ : Type} (f : α → β → γ) :
    ∀ (a : List α) (b : List β) (i : ℕ),
      (List.zipWith f a b)[i]? = (a[i]?).bind fun x => (b[i]?).map fun y => f x y
  | [], _, _ => by simp
  | _ :: _, [], _ => by simp
  | x :: xs, y :: ys, 0 => by simp [List.zipWith]
  | x :: xs, y :: ys, i + 1 => by
    simp only [List.zipWith, List.getElem?_cons_succ]
    exact getElem?_zipWithF f xs ys i

/-- The `i`-th idle time produced by the scan is the idle value of the
`i`-th row computed against the map accumulated over the first `i`
rows. -/
theorem idleScan_getElem? :
    ∀ (l : List DRow) (m : Int → Option Int) (i : ℕ),
      (idleScan m l)[i]? = (l[i]?).map fun r => idleOf (mAfter m (l.take i)) r
  | [], m, i => by simp [idleScan]
  | r :: rs, m, 0 => by
    simp [idleScan, mAfter]
  | r :: rs, m, i + 1 => by
    simp only [idleScan, List.getElem?_cons_succ]
    rw [idleScan_getElem? rs (updMap m r) i]
    rfl

/-! ## Stability of the sort -/

/-- Rows with equal (vendor, pickup) keys are related by the sort
order. -/
theorem lexLe_of_key_eq {a b : DRow} (hv : a.vendor_id = b.vendor_id)
    (hp : a.pickup_datetime = b.pickup_datetime) : lexLe a b :=
  Or.inr ⟨hv, le_of_eq hp⟩

/-- Inserting a row does not disturb the subsequence of rows with any
fixed key: the new row lands before every row of equal key. -/
theorem filter_key_orderedInsert (a : DRow) (k : Int × Int) :
    ∀ l : List DRow,
      (List.orderedInsert lexLe a l).filter
          (fun r => (r.vendor_id, r.pickup_datetime) = k)
        = if (a.vendor_id, a.pickup_datetime) = k
            then a :: l.filter (fun r => (r.vendor_id, r.pickup_datetime) = k)
            else l.filter (fun r => (r.vendor_id, r.pickup_datetime) = k)
  | [] => by
    by_cases ha : (a.vendor_id, a.pickup_datetime) = k <;>
      simp [List.orderedInsert, List.filter_cons, ha]
  | b :: t => by
    rw [List.orderedInsert]
    by_cases hab : lexLe a b
    · rw [if_pos hab]
      by_cases ha : (a.vendor_id, a.pickup_datetime) = k <;>
        simp [List.filter_cons, ha]
    · rw [if_neg hab, List.filter_cons, filter_key_orderedInsert a k t,
        List.filter_cons]
      by_cases ha : (a.vendor_id, a.pickup_datetime) = k
      · have hb : ¬((b.vendor_id, b.pickup_datetime) = k) := by
          intro hbk
          apply hab
          rw [← ha] at hbk
          have h1 : b.vendor_id = a.vendor_id := congrArg Prod.fst hbk
          have h2 : b.pickup_datetime = a.pickup_datetime := congrArg Prod.snd hbk
          exact lexLe_of_key_eq h1.symm h2.symm
        simp [ha, hb]
      · by_cases hb : (b.vendor_id, b.pickup_datetime) = k <;> simp [ha, hb]

/-- Stability of the sort: for every key value, the subsequence of rows
carrying that key is unchanged by sorting. -/
theorem filter_key_sortRows (k : Int × Int) :
    ∀ l : List DRow,
      (sortRows l).filter (fun r => (r.vendor_id, r.pickup_datetime) = k)
        = l.filter (fun r => (r.vendor_id, r.pickup_datetime) = k)
  | [] => rfl
  | a :: t => by
    rw [sortRows, List.insertionSort,
      filter_key_orderedInsert a k (List.insertionSort lexLe t)]
    rw [show List.insertionSort lexLe t = sortRows t from rfl,
      filter_key_sortRows k t, List.filter_cons]
    by_cases ha : (a.vendor_id, a.pickup_datetime) = k <;> simp [ha]

/-! ## Shape of the fully derived rows -/

/-- Every position of the derived dataset is either out of range or the
full derivation of some input row: base features, then an idle time, then
fare-per-km and efficiency. -/
theorem create_row_shape (df : List VRow) (i : ℕ) :
    (create_derived_features df)[i]? = none ∨
      ∃ v, v ∈ df ∧ ∃ o : Option Int,
        (create_derived_features df)[i]? = some (addFareEff (setIdle o (addBase v))) := by
  simp only [create_derived_features]
  rw [List.getElem?_map, getElem?_zipWithF, idleScan_getElem?]
  cases h : (sortRows (df.map addBase))[i]? with
  | none => left; simp [h]
  | some b =>
    right
    have hb : b ∈ sortRows (df.map addBase) := List.getElem?_mem h
    have hb2 : b ∈ df.map addBase := by
      rw [sortRows] at hb
      exact (List.mem_insertionSort lexLe).mp hb
    rcases List.mem_map.mp hb2 with ⟨v, hv, rfl⟩
    exact ⟨v, hv,
      idleOf (mAfter (fun _ => none) ((sortRows (df.map addBase)).take i)) (addBase v),
      by simp [h]⟩

/-- Per-row facts about the base derivation: the speed is absent exactly
when the masked duration is absent or zero, and a present duration is
never negative. -/
theorem addBase_duration_speed (v : VRow) :
    ((addBase v).trip_speed_kmh = none ↔
      (addBase v).trip_duration_sec = none ∨ (addBase v).trip_duration_sec = some 0) ∧
      Option.elim (addBase v).trip_duration_sec True (fun d => 0 ≤ d) := by
  simp only [addBase]
  constructor
  · rcases lt_trichotomy (v.dropoff_datetime - v.pickup_datetime) 0 with h | h | h
    · rw [if_neg (by omega), if_neg (by omega)]
      simp
    · rw [if_neg (by omega), if_pos (by omega)]
      simp [h]
    · rw [if_pos (by omega), if_pos (by omega)]
      simp
      omega
  · by_cases h : 0 ≤ v.dropoff_datetime - v.pickup_datetime
    · rw [if_pos h]
      exact h
    · rw [if_neg h]
      trivial

/-- A present speed value is non-negative: the haversine distance is
non-negative and the duration in the denominator is positive. -/
theorem addBase_speed_nonneg (v : VRow) :
    Option.elim (addBase v).trip_speed_kmh True (fun s => 0 ≤ s) := by
  simp only [addBase]
  by_cases h : 0 < v.dropoff_datetime - v.pickup_datetime
  · rw [if_pos h]
    refine div_nonneg (calculate_trip_distance_nonneg _ _ _ _) ?_
    have : (0 : ℝ) < ((v.dropoff_datetime - v.pickup_datetime : Int) : ℝ) := by
      exact_mod_cast h
    positivity
  · rw [if_neg h]
    trivial

/-- C6: after feature derivation, a record's `trip_speed_kmh` is absent
exactly when its masked `trip_duration_sec` is absent (negative raw
difference) or zero — so for duration ≤ 0 or absent the speed is absent,
never zero, negative or infinite; moreover a present duration is
non-negative. -/
theorem speed_absent_iff_duration_nonpositive (df : List VRow) (i : ℕ) :
    match (create_derived_features df)[i]? with
    | none => True
    | some r =>
        (r.trip_speed_kmh = none ↔
          r.trip_duration_sec = none ∨ r.trip_duration_sec = some 0) ∧
          Option.elim r.trip_duration_sec True (fun d => 0 ≤ d) := by
  rcases create_row_shape df i with h | ⟨v, hv, o, h⟩ <;> rw [h]
  · trivial
  · have hs : (addFareEff (setIdle o (addBase v))).trip_speed_kmh
        = (addBase v).trip_speed_kmh := rfl
    have hd : (addFareEff (setIdle o (addBase v))).trip_duration_sec
        = (addBase v).trip_duration_sec := rfl
    show _ ∧ _
    rw [hs, hd]
    exact addBase_duration_speed v

/-- C10: after feature derivation, `trip_efficiency` is present exactly
when `trip_speed_kmh` is present, and every present value lies in the
closed interval [0, 1]. -/
theorem efficiency_within_unit_interval (df : List VRow) (i : ℕ) :
    match (create_derived_features df)[i]? with
    | none => True
    | some r =>
        r.trip_efficiency.isSome = r.trip_speed_kmh.isSome ∧
          Option.elim r.trip_efficiency True (fun e => 0 ≤ e ∧ e ≤ 1) := by
  rcases create_row_shape df i with h | ⟨v, hv, o, h⟩ <;> rw [h]
  · trivial
  · have heff : (addFareEff (setIdle o (addBase v))).trip_efficiency
        = (addBase v).trip_speed_kmh.map
            (fun s => min (s / SPEED_OUTLIER_THRESHOLD) 1) := rfl
    have hs : (addFareEff (setIdle o (addBase v))).trip_speed_kmh
        = (addBase v).trip_speed_kmh := rfl
    show _ ∧ _
    constructor
    · rw [heff, hs]
      cases (addBase v).trip_speed_kmh <;> rfl
    · rw [heff]
      cases hsp : (addBase v).trip_speed_kmh with
      | none => trivial
      | some s =>
        have hnn : 0 ≤ s := by
          have hb := addBase_speed_nonneg v
          rw [hsp] at hb
          exact hb
        show 0 ≤ min (s / SPEED_OUTLIER_THRESHOLD) 1 ∧
          min (s / SPEED_OUTLIER_THRESHOLD) 1 ≤ 1
        constructor
        · refine le_min (div_nonneg hnn ?_) (by norm_num)
          rw [SPEED_OUTLIER_THRESHOLD]
          norm_num
        · exact min_le_right _ _

/-- C1: the idle times attached by `create_derived_features` are exactly
the claimed per-record values over the single stable sort by (vendor id,
pickup time): at each position of the sorted order, the idle time is
absent when no earlier record of the same operator exists, and otherwise
is this record's pickup time minus the **immediately preceding**
same-operator record's dropoff time when that difference is non-negative
and absent when negative.  `prevDropoff` reads the last same-operator
dropoff of the prefix — the map entry updated unconditionally after each
record — and the remaining conjuncts say the sort is a permutation,
sorted by (vendor id, pickup) ascending, and stable (each key's
subsequence is preserved). -/
theorem idle_time_spec (df : List VRow) :
    (∀ i : ℕ,
      ((create_derived_features df)[i]?).map (fun r => r.idle_time_sec)
        = ((sortRows (df.map addBase))[i]?).map (fun r =>
            match prevDropoff ((sortRows (df.map addBase)).take i) r.vendor_id with
            | none => none
            | some d =>
              if 0 ≤ r.pickup_datetime - d then some (r.pickup_datetime - d)
              else none)) ∧
      (sortRows (df.map addBase)).Perm (df.map addBase) ∧
      List.Sorted lexLe (sortRows (df.map addBase)) ∧
      (∀ k : Int × Int,
        (sortRows (df.map addBase)).filter
            (fun r => (r.vendor_id, r.pickup_datetime) = k)
          = (df.map addBase).filter
              (fun r => (r.vendor_id, r.pickup_datetime) = k)) := by
  refine ⟨?_, ?_, ?_, ?_⟩
  · intro i
    simp only [create_derived_features]
    rw [List.getElem?_map, getElem?_zipWithF, idleScan_getElem?]
    cases h : (sortRows (df.map addBase))[i]? with
    | none => simp
    | some b =>
      have hmap : mAfter (fun _ => none)
            ((sortRows (df.map addBase)).take i) b.vendor_id
          = prevDropoff ((sortRows (df.map addBase)).take i) b.vendor_id := by
        rw [mAfter_eq]
        cases prevDropoff ((sortRows (df.map addBase)).take i) b.vendor_id <;> rfl
      show some (idleOf (mAfter (fun _ => none)
            ((sortRows (df.map addBase)).take i)) b)
          = some (match prevDropoff ((sortRows (df.map addBase)).take i)
                b.vendor_id with
              | none => none
              | some d =>
                if 0 ≤ b.pickup_datetime - d then some (b.pickup_datetime - d)
                else none)
      rw [idleOf, hmap]
  · rw [sortRows]
    exact List.perm_insertionSort lexLe _
  · rw [sortRows]
    exact List.sorted_insertionSort lexLe _
  · intro k
    exact filter_key_sortRows k (df.map addBase)

end NYCTrain
